import Mathlib

/-!
Verification of the time-tracker activity store and analytics engine.

The TypeScript source is shallowly embedded:

* JS `number` values that hold integers (timestamps in milliseconds,
  ids, day/month/year fields, minute counts) are modelled as `Int`;
  fractional statistics are modelled as `ℚ` (exact arithmetic).
* A JS `Date` is modelled by its epoch value in milliseconds (`Int`).
  The host timezone is modelled as UTC (offset 0), so the "local"
  calendar accessors `getFullYear`/`getMonth`/`getDate` agree with the
  UTC civil calendar; the civil-from-days conversion below implements
  the proleptic Gregorian calendar.
* `undefined`-able fields become `Option`; a patch object distinguishes
  "key absent" from "key present with value `undefined`" by a double
  `Option`.
* The IndexedDB object store is modelled as the list of its records in
  ascending primary-key order (the order `getAll` returns), and the
  `this.db === null` guard as an outer `Option`; rejected promises
  become `Except String`.
-/

/-- JS `Math.round`: round half toward positive infinity. -/
def jsRound (q : ℚ) : ℤ := ⌊q + 1/2⌋

/-- JS `Math.floor` on an exact division of integers: floor division. -/
def jsFloorDiv (a b : ℤ) : ℤ := Int.fdiv a b

/-- Fuel-driven core of the decimal printer (structural recursion so
that the kernel can evaluate it; the fuel only bounds the recursion
depth and is irrelevant once it exceeds the argument). -/
def decDigitsCore : Nat → Nat → List Char
  | 0, _ => []
  | fuel + 1, n =>
    if n < 10 then [Nat.digitChar n]
    else decDigitsCore fuel (n / 10) ++ [Nat.digitChar (n % 10)]

/-- Decimal digit characters of a natural number, most significant
first; models the integer case of JS number-to-string conversion. -/
def decDigits (n : Nat) : List Char := decDigitsCore (n + 1) n

/-- Decimal string of a natural number (model of JS `String(n)`). -/
def decRepr (n : Nat) : String := (decDigits n).asString

/-- Decimal string of an integer (model of JS `String(i)` / template
interpolation for integral numbers). -/
def intRepr (i : Int) : String :=
  if i < 0 then "-" ++ decRepr (-i).toNat else decRepr i.toNat

/-- JS `String(i).padStart(2, "0")`. -/
def jsPad2 (i : Int) : String :=
  let s := intRepr i
  if s.length < 2 then "0" ++ s else s

/-- Zero-pad a string on the left to width `w` (JS `padStart(w, "0")`). -/
def padZeros (s : String) (w : Nat) : String :=
  (List.replicate (w - s.length) '0').asString ++ s

/-- Days-since-epoch of an epoch-millisecond timestamp (UTC model). -/
def epochDay (ms : Int) : Int := Int.fdiv ms 86400000

/-- Proleptic-Gregorian civil date `(year, month 1..12, day 1..31)` of a
days-since-1970 count (standard era-based conversion algorithm). -/
def civilFromDays (z0 : Int) : Int × Int × Int :=
  let z := z0 + 719468
  let era := Int.fdiv z 146097
  let doe := z - era * 146097
  let yoe := Int.fdiv (doe - Int.fdiv doe 1460 + Int.fdiv doe 36524 - Int.fdiv doe 146096) 365
  let y := yoe + era * 400
  let doy := doe - (365 * yoe + Int.fdiv yoe 4 - Int.fdiv yoe 100)
  let mp := Int.fdiv (5 * doy + 2) 153
  let d := doy - Int.fdiv (153 * mp + 2) 5 + 1
  let m := mp + (if mp < 10 then 3 else -9)
  (if m ≤ 2 then y + 1 else y, m, d)

/-- `date.getFullYear()` in the UTC-offset model. -/
def getFullYear (ms : Int) : Int := (civilFromDays (epochDay ms)).1

/-- `date.getMonth()` (0-based month) in the UTC-offset model. -/
def getMonth (ms : Int) : Int := (civilFromDays (epochDay ms)).2.1 - 1

/-- `date.getDate()` (day of month) in the UTC-offset model. -/
def getDate (ms : Int) : Int := (civilFromDays (epochDay ms)).2.2

/-- The date part of `date.toISOString()`: `YYYY-MM-DD` with the year
zero-padded to four digits (model valid for years 0..9999, the only
range exercised here). -/
def isoDateKey (ms : Int) : String :=
  let c := civilFromDays (epochDay ms)
  padZeros (intRepr c.1) 4 ++ "-" ++ jsPad2 c.2.1 ++ "-" ++ jsPad2 c.2.2

/-- An activity record as persisted in the store.  `endTime` embeds the
source field `end` (a Lean keyword); `tags = none` embeds an absent
`tags` property. -/
structure Activity where
  id : Option Int
  activity : String
  description : Option String
  tags : Option (List String)
  start : Int
  endTime : Option Int
  day : Int
  month : Int
  year : Int
deriving DecidableEq, Repr

/-- A `Partial<Activity>` update object.  For each field, `none` means
the key is absent from the patch; `some v` means the key is present with
value `v`, where `v` itself may embed `undefined` for optional fields. -/
structure ActivityPatch where
  activity : Option String := none
  description : Option (Option String) := none
  tags : Option (Option (List String)) := none
  start : Option Int := none
  endTime : Option (Option Int) := none
  day : Option Int := none
  month : Option Int := none
  year : Option Int := none
deriving DecidableEq, Repr

/-- JS object spread `{ ...activity, ...updates }`: every key present in
the patch overwrites the stored field, including keys whose value is
`undefined`; absent keys leave the field unchanged. -/
def mergeActivity (a : Activity) (p : ActivityPatch) : Activity :=
  { id := a.id
    activity := p.activity.getD a.activity
    description := p.description.getD a.description
    tags := p.tags.getD a.tags
    start := p.start.getD a.start
    endTime := p.endTime.getD a.endTime
    day := p.day.getD a.day
    month := p.month.getD a.month
    year := p.year.getD a.year }

/-- The wrapper's state: `none` embeds `this.db === null` (before a
successful `init`), `some s` an open store whose records are listed in
ascending primary-key order (the order IndexedDB `getAll` / `getAll`
on an index with equal keys returns them). -/
def TimeTrackerDB := Option (List Activity)

/-- The `sort` comparator `new Date(a.start).getTime() - new Date(b.start).getTime()`
used by the query methods: ascending by `start`. -/
def startLe (a b : Activity) : Bool := decide (a.start ≤ b.start)

/-- Membership test of a record in the `date` index for key
`[y, m, d]`: its denormalized fields equal the key. -/
def dateTripleEq (a : Activity) (y m d : Int) : Bool :=
  decide (a.year = y) && decide (a.month = m) && decide (a.day = d)

/-- `getActivitiesByDate`: `date` index lookup with key
`[date.getFullYear(), date.getMonth() + 1, date.getDate()]`, then sort
ascending by `start`. -/
def getActivitiesByDate (db : TimeTrackerDB) (dateMs : Int) :
    Except String (List Activity) :=
  match db with
  | none => .error "Database not initialized"
  | some s =>
    let y := getFullYear dateMs
    let m := getMonth dateMs + 1
    let d := getDate dateMs
    .ok ((s.filter (fun a => dateTripleEq a y m d)).mergeSort startLe)

/-- The date filter of `getActivitiesByDateAndTags`: it compares the
local calendar components of `new Date(activity.start)` with those of
the query date (not the denormalized fields). -/
def sameStartDate (a : Activity) (dateMs : Int) : Bool :=
  decide (getFullYear a.start = getFullYear dateMs) &&
  decide (getMonth a.start = getMonth dateMs) &&
  decide (getDate a.start = getDate dateMs)

/-- `activity.tags && activity.tags.includes(tag)`: `false` when `tags`
is absent. -/
def hasTag (a : Activity) (t : String) : Bool :=
  match a.tags with
  | none => false
  | some ts => ts.contains t

/-- `getActivitiesByDateAndTags`: `getAll`, filter by the start
timestamp's local date, then (only when the tag list is nonempty) keep
activities carrying every requested tag, then sort ascending by `start`. -/
def getActivitiesByDateAndTags (db : TimeTrackerDB) (dateMs : Int)
    (tags : List String) : Except String (List Activity) :=
  match db with
  | none => .error "Database not initialized"
  | some s =>
    let byDate := s.filter (fun a => sameStartDate a dateMs)
    let filtered :=
      if tags.length > 0 then
        byDate.filter (fun a => tags.all (fun t => hasTag a t))
      else byDate
    .ok (filtered.mergeSort startLe)

/-- `getCurrentActivity`: first record of `getAll` whose `end` is
falsy; a present `end` is a `Date` object, hence truthy, so the test is
exactly "`end` is absent". -/
def getCurrentActivity (db : TimeTrackerDB) :
    Except String (Option Activity) :=
  match db with
  | none => .error "Database not initialized"
  | some s => .ok (s.find? (fun a => a.endTime.isNone))

/-- `updateActivity`: `get(id)`, reject when absent, otherwise `put`
the spread-merged record back under the same primary key.  Primary keys
are unique in IndexedDB, so `put` is embedded as rewriting the (unique)
record carrying `id`. -/
def updateActivity (db : TimeTrackerDB) (id : Int)
    (updates : ActivityPatch) : Except String TimeTrackerDB :=
  match db with
  | none => .error "Database not initialized"
  | some s =>
    match s.find? (fun a => decide (a.id = some id)) with
    | none => .error "Activity not found"
    | some _ =>
      .ok (some (s.map (fun a =>
        if a.id = some id then mergeActivity a updates else a)))

/-- `deleteActivity`: `IDBObjectStore.delete(id)`, which succeeds
whether or not a record with that key exists. -/
def deleteActivity (db : TimeTrackerDB) (id : Int) :
    Except String TimeTrackerDB :=
  match db with
  | none => .error "Database not initialized"
  | some s => .ok (some (s.filter (fun a => !decide (a.id = some id))))

/-- `stopCurrentActivity`: look up the current activity; when one is
found *and its `id` is truthy* (a nonzero number), set its `end` to the
current time via `updateActivity`; otherwise do nothing. -/
def stopCurrentActivity (db : TimeTrackerDB) (now : Int) :
    Except String TimeTrackerDB :=
  match getCurrentActivity db with
  | .error e => .error e
  | .ok none => .ok db
  | .ok (some a) =>
    match a.id with
    | none => .ok db
    | some i =>
      if i ≠ 0 then updateActivity db i { endTime := some (some now) }
      else .ok db

/-- A persisted IndexedDB database for the migration model: its stored
schema version, the index names on the `activities` store, and the
stored records. -/
structure DBState where
  version : Nat
  indexNames : List String
  records : List Activity
deriving DecidableEq, Repr

/-- The cursor body of the `1 -> 2` migration: a record whose `tags`
property is falsy (absent) is rewritten with `tags = []`; all other
records are left untouched. -/
def backfillTags (a : Activity) : Activity :=
  if a.tags = none then { a with tags := some [] } else a

/-- The `onupgradeneeded` handler body of `init`, parameterized by
`event.oldVersion`: below 1 it creates the store with the `date`,
`activity` and `start` indexes; below 2 it adds the `tags` index (if
missing) and backfills `tags` on every stored record. -/
def runUpgrade (oldVersion : Nat) (s : DBState) : DBState :=
  let s1 :=
    if oldVersion < 1 then
      { version := s.version
        indexNames := ["date", "activity", "start"]
        records := [] }
    else s
  if oldVersion < 2 then
    { s1 with
      indexNames :=
        if s1.indexNames.contains "tags" then s1.indexNames
        else s1.indexNames ++ ["tags"]
      records := s1.records.map backfillTags }
  else s1

/-- `indexedDB.open(name, 2)` on a persisted database: when the stored
version is below 2 the upgrade handler runs with `oldVersion` equal to
the stored version and the version is bumped to 2; when it is already
2 no upgrade handler runs and the database is untouched. -/
def openDB (persisted : DBState) : DBState :=
  if persisted.version < 2 then
    { runUpgrade persisted.version persisted with version := 2 }
  else persisted

/-- `calculatePercentageChange` of the options page. -/
def calculatePercentageChange (oldValue newValue : ℚ) : ℚ :=
  if oldValue = 0 then (if newValue > 0 then 100 else 0)
  else (jsRound ((newValue - oldValue) / oldValue * 100) : ℚ)

/-- Whole-minute duration of one activity: `end ?? now` minus `start`
in milliseconds, `Math.floor`ed to minutes. -/
def durationMinutes (now : Int) (a : Activity) : Int :=
  jsFloorDiv (a.endTime.getD now - a.start) 60000

/-- The unpadded date key `` `${a.year}-${a.month}-${a.day}` `` used by
the statistics code to count distinct active days. -/
def statsDateKey (a : Activity) : String :=
  intRepr a.year ++ "-" ++ intRepr a.month ++ "-" ++ intRepr a.day

/-- The padded date key used by `generateDailyTimeData`:
`` `${a.year}-${pad2(a.month)}-${pad2(a.day)}` ``. -/
def paddedDateKey (a : Activity) : String :=
  intRepr a.year ++ "-" ++ jsPad2 a.month ++ "-" ++ jsPad2 a.day

/-- Number of distinct `statsDateKey`s (the `Set` of day keys). -/
def activeDaysCount (acts : List Activity) : Nat :=
  (acts.map statsDateKey).dedup.length

/-- Summed whole-minute durations of a list of activities. -/
def totalMinutes (now : Int) (acts : List Activity) : Int :=
  (acts.map (durationMinutes now)).sum

/-- `a.tags && a.tags.length > 0`. -/
def isTagged (a : Activity) : Bool :=
  match a.tags with
  | none => false
  | some ts => decide (ts.length > 0)

/-- Number of activities carrying at least one tag. -/
def taggedCount (acts : List Activity) : Nat :=
  (acts.filter isTagged).length

/-- Number of distinct activity names (the `Set` of names). -/
def uniqueActivityCount (acts : List Activity) : Nat :=
  (acts.map Activity.activity).dedup.length

/-- Factor 1 of the productivity score: consistency over the lookback
window (`this.analyticsTimeRange || 30` days), clamped at 100. -/
def consistencyScore (timeRange : Nat) (acts : List Activity) : ℚ :=
  let days : ℚ := if timeRange = 0 then 30 else (timeRange : ℚ)
  min ((activeDaysCount acts : ℚ) / days * 100) 100

/-- Factor 2 of the productivity score: piecewise function of the
average session length in minutes. -/
def sessionScore (now : Int) (acts : List Activity) : ℚ :=
  let avg : ℚ := (totalMinutes now acts : ℚ) / (acts.length : ℚ)
  if 25 ≤ avg ∧ avg ≤ 90 then 100
  else if avg > 90 then max 50 (100 - (avg - 90) / 2)
  else avg / 25 * 100

/-- Factor 3: percentage of activities carrying at least one tag. -/
def organizationScore (acts : List Activity) : ℚ :=
  (taggedCount acts : ℚ) / (acts.length : ℚ) * 100

/-- Factor 4: activity-name variety, clamped at 100. -/
def varietyScore (acts : List Activity) : ℚ :=
  min ((uniqueActivityCount acts : ℚ) / 10 * 100) 100

/-- `calculateProductivityScore`: 0 on an empty list, otherwise the
weighted blend of the four factors divided by the accumulated weights
and rounded.  The weights 0.3/0.3/0.2/0.2 are exact rationals here. -/
def calculateProductivityScore (timeRange : Nat) (now : Int)
    (acts : List Activity) : ℚ :=
  if acts.length = 0 then 0
  else
    let score :=
      consistencyScore timeRange acts * (3/10) +
      sessionScore now acts * (3/10) +
      organizationScore acts * (2/10) +
      varietyScore acts * (2/10)
    let factors : ℚ := 3/10 + 3/10 + 2/10 + 2/10
    (jsRound (score / factors) : ℚ)

/-- Insertion-ordered map lookup with default (`map.get(k) || 0` on
integer values: an absent key and a stored 0 both yield the default 0). -/
def mapGetD (m : List (String × Int)) (k : String) (d : Int) : Int :=
  match m.find? (fun e => e.1 == k) with
  | some e => e.2
  | none => d

/-- Insertion-ordered map update (`map.set(k, v)`): overwrite in place
when the key exists, otherwise append. -/
def mapSet (m : List (String × Int)) (k : String) (v : Int) :
    List (String × Int) :=
  if m.any (fun e => e.1 == k) then
    m.map (fun e => if e.1 == k then (k, v) else e)
  else m ++ [(k, v)]

/-- The accumulation loop of `generateDailyTimeData`: for each activity
add its whole-minute duration to the bucket of its padded date key. -/
def buildDailyMap (now : Int) (acts : List Activity) :
    List (String × Int) :=
  acts.foldl (fun m a =>
    let key := paddedDateKey a
    mapSet m key (mapGetD m key 0 + durationMinutes now a)) []

/-- One point of the daily time series. -/
structure DailyEntry where
  date : String
  minutes : Int
deriving DecidableEq, Repr

/-- `generateDailyTimeData`: bucket durations by padded date key, then
emit one entry per day for the last `analyticsTimeRange || 30` days
ending today, keyed by the ISO date of `now` minus `i` days (the
`setDate(getDate() - i)` shift equals an exact day shift in the
fixed-offset timezone model). -/
def generateDailyTimeData (timeRange : Nat) (now : Int)
    (acts : List Activity) : List DailyEntry :=
  let dailyMap := buildDailyMap now acts
  let days := if timeRange = 0 then 30 else timeRange
  (List.range days).map (fun j =>
    let i := days - 1 - j
    let key := isoDateKey (now - (i : Int) * 86400000)
    { date := key, minutes := mapGetD dailyMap key 0 })

/-- Value of a decimal digit character. -/
def digitVal (c : Char) : Nat := c.toNat - '0'.toNat

/-- Decimal value of a digit string (the `parseInt(_, 10)` of a string
of digit characters). -/
def charsVal (l : List Char) : Nat :=
  l.foldl (fun n c => 10 * n + digitVal c) 0

/-- The regex match `^(\d{1,2}):(\d{2})$` of `parseTimeInput` together
with the `parseInt` of the two groups: the only accepted character
shapes are digit-colon-digit-digit and digit-digit-colon-digit-digit. -/
def parseTimeChars : List Char → Option (Nat × Nat)
  | [h1, c, m1, m2] =>
    if decide (c = ':') && h1.isDigit && m1.isDigit && m2.isDigit then
      some (digitVal h1, 10 * digitVal m1 + digitVal m2)
    else none
  | [h1, h2, c, m1, m2] =>
    if decide (c = ':') && h1.isDigit && h2.isDigit &&
        m1.isDigit && m2.isDigit then
      some (10 * digitVal h1 + digitVal h2, 10 * digitVal m1 + digitVal m2)
    else none
  | _ => none

/-- `parseTimeInput`: regex match, then the range check on hours and
minutes; the returned `Date` is represented by its `(hours, minutes)`
pair (the only data `setHours(h, m, 0, 0)` receives). -/
def parseTimeInput (s : String) : Option (Nat × Nat) :=
  match parseTimeChars s.data with
  | none => none
  | some (h, m) => if h ≤ 23 && m ≤ 59 then some (h, m) else none

/-- `isValidTimeFormat`: `parseTimeInput(timeStr) !== null`. -/
def isValidTimeFormat (s : String) : Bool :=
  (parseTimeInput s).isSome

/-- The claim's characterization of a valid time string: one or two
digits, a colon, exactly two digits, hours at most 23, minutes at most
59. -/
def ValidTimeString (s : String) : Prop :=
  ∃ hs ms : List Char,
    s.data = hs ++ ':' :: ms ∧
    1 ≤ hs.length ∧ hs.length ≤ 2 ∧ ms.length = 2 ∧
    (∀ c ∈ hs, c.isDigit) ∧ (∀ c ∈ ms, c.isDigit) ∧
    charsVal hs ≤ 23 ∧ charsVal ms ≤ 59

/-- Sample closed record: 2024-01-01 10:00-11:00 UTC, one tag. -/
def sampleClosed : Activity :=
  { id := some 1
    activity := "writing"
    description := none
    tags := some ["work"]
    start := 1704103200000
    endTime := some 1704106800000
    day := 1
    month := 1
    year := 2024 }

/-- C4: `calculatePercentageChange` returns 0 for `p = 0, c = 0`, 100
for `p = 0, c > 0`, and otherwise `Math.round((c - p) / p * 100)`; in
particular `(0,0) ↦ 0`, `(0,5) ↦ 100` and `(50,75) ↦ 50`. -/
theorem calculatePercentageChange_spec (p c : ℤ) :
    (p = 0 → c = 0 → calculatePercentageChange (p : ℚ) (c : ℚ) = 0) ∧
    (p = 0 → 0 < c → calculatePercentageChange (p : ℚ) (c : ℚ) = 100) ∧
    (p ≠ 0 → calculatePercentageChange (p : ℚ) (c : ℚ) =
      (jsRound (((c : ℚ) - (p : ℚ)) / (p : ℚ) * 100) : ℚ)) ∧
    calculatePercentageChange 0 0 = 0 ∧
    calculatePercentageChange 0 5 = 100 ∧
    calculatePercentageChange 50 75 = 50 := by
  refine ⟨?_, ?_, ?_, ?_, ?_, ?_⟩
  · intro hp hc
    subst hp; subst hc
    simp [calculatePercentageChange]
  · intro hp hc
    subst hp
    have hc1 : (0 : ℚ) < (c : ℚ) := by exact_mod_cast hc
    simp [calculatePercentageChange, hc1]
  · intro hp
    have hp1 : (p : ℚ) ≠ 0 := by exact_mod_cast hp
    simp [calculatePercentageChange, hp1]
  · simp [calculatePercentageChange]
  · norm_num [calculatePercentageChange]
  · norm_num [calculatePercentageChange, jsRound]

/-- Witness for C4 at the spec's example inputs. -/
theorem calculatePercentageChange_spec_witness :
    calculatePercentageChange ((0 : ℤ) : ℚ) ((5 : ℤ) : ℚ) = 100 :=
  (calculatePercentageChange_spec 0 5).2.1 rfl (by decide)

/-- C7: on an open store, `deleteActivity` always succeeds, and when no
record carries the requested id it is a no-op on the records (success,
not a not-found error). -/
theorem deleteActivity_spec (db : TimeTrackerDB) (s : List Activity)
    (id : Int) (hopen : db = some s) :
    (∃ s2, deleteActivity db id = .ok s2) ∧
    ((∀ a ∈ s, a.id ≠ some id) → deleteActivity db id = .ok (some s)) := by
  subst hopen
  constructor
  · exact ⟨_, rfl⟩
  · intro habsent
    have hf : s.filter (fun a => !decide (a.id = some id)) = s :=
      List.filter_eq_self.mpr (fun a ha => by simpa using habsent a ha)
    simp [deleteActivity, hf]

/-- Witness for C7: deleting id 99, which no record carries. -/
theorem deleteActivity_spec_witness :
    (∃ s2, deleteActivity (some [sampleClosed]) 99 = .ok s2) ∧
    ((∀ a ∈ [sampleClosed], a.id ≠ some 99) →
      deleteActivity (some [sampleClosed]) 99 = .ok (some [sampleClosed])) :=
  deleteActivity_spec (some [sampleClosed]) [sampleClosed] 99 rfl

/-- C9: `updateActivity` rewrites the record carrying the id by the JS
spread merge, which leaves exactly the absent-keyed fields unchanged; a
key present with value `undefined` overwrites the stored field to
`undefined` — in particular a patch carrying `end: undefined` clears a
stored `end`. -/
theorem updateActivity_patch_spec (s : List Activity) (id : Int)
    (p : ActivityPatch) (a : Activity) (hmem : a ∈ s)
    (hid : a.id = some id) :
    (updateActivity (some s) id p =
      .ok (some (s.map (fun b =>
        if b.id = some id then mergeActivity b p else b)))) ∧
    (p.activity = none → (mergeActivity a p).activity = a.activity) ∧
    (∀ v, p.activity = some v → (mergeActivity a p).activity = v) ∧
    (p.description = none → (mergeActivity a p).description = a.description) ∧
    (∀ v, p.description = some v → (mergeActivity a p).description = v) ∧
    (p.tags = none → (mergeActivity a p).tags = a.tags) ∧
    (∀ v, p.tags = some v → (mergeActivity a p).tags = v) ∧
    (p.start = none → (mergeActivity a p).start = a.start) ∧
    (∀ v, p.start = some v → (mergeActivity a p).start = v) ∧
    (p.endTime = none → (mergeActivity a p).endTime = a.endTime) ∧
    (∀ v, p.endTime = some v → (mergeActivity a p).endTime = v) ∧
    (p.day = none → (mergeActivity a p).day = a.day) ∧
    (p.month = none → (mergeActivity a p).month = a.month) ∧
    (p.year = none → (mergeActivity a p).year = a.year) ∧
    (mergeActivity a { endTime := some none }).endTime = none := by
  have hfind : ∃ b, s.find? (fun b => decide (b.id = some id)) = some b := by
    have : (s.find? (fun b => decide (b.id = some id))).isSome := by
      rw [List.find?_isSome]
      exact ⟨a, hmem, by simp [hid]⟩
    exact Option.isSome_iff_exists.mp this
  obtain ⟨b, hb⟩ := hfind
  refine ⟨?_, ?_, ?_, ?_, ?_, ?_, ?_, ?_, ?_, ?_, ?_, ?_, ?_, ?_, ?_⟩
  · simp only [updateActivity, hb]
  all_goals
    first
    | (intro h; simp [mergeActivity, h])
    | (intro v h; simp [mergeActivity, h])
    | simp [mergeActivity]

/-- Witness for C9: a patch whose only key is `end: undefined` clears
the stored `end` of the sample record. -/
theorem updateActivity_patch_spec_witness :
    (mergeActivity sampleClosed { endTime := some none }).endTime = none :=
  (updateActivity_patch_spec [sampleClosed] 1 { endTime := some none }
    sampleClosed (List.mem_singleton.mpr rfl) rfl).2.2.2.2.2.2.2.2.2.2.2.2.2.2

/-- Sample open record (no `end`). -/
def sampleOpen : Activity :=
  { id := some 3
    activity := "reading"
    description := none
    tags := none
    start := 1704108600000
    endTime := none
    day := 1
    month := 1
    year := 2024 }

/-- Sample legacy record lacking a `tags` property. -/
def sampleLegacy : Activity :=
  { id := some 2
    activity := "legacy"
    description := none
    tags := none
    start := 0
    endTime := some 60000
    day := 1
    month := 1
    year := 1970 }

/-- A persisted database at schema version 1. -/
def sampleV1DB : DBState :=
  { version := 1
    indexNames := ["date", "activity", "start"]
    records := [sampleLegacy, sampleClosed] }

/-- C3: opening a version-1 database runs the `1 -> 2` migration — the
`tags` index is added and every record lacking `tags` is backfilled with
an empty array, so no record ends up with `tags` absent, records already
carrying `tags` are kept as they are, and no record is dropped — while
opening a version-2 database runs no upgrade step and changes nothing. -/
theorem openDB_migration_spec (s : DBState) :
    (s.version = 1 →
      "tags" ∈ (openDB s).indexNames ∧
      (openDB s).records = s.records.map backfillTags ∧
      (∀ r ∈ (openDB s).records, r.tags ≠ none) ∧
      (∀ r ∈ s.records, r.tags ≠ none → r ∈ (openDB s).records) ∧
      (openDB s).records.length = s.records.length ∧
      (openDB s).version = 2) ∧
    (s.version = 2 → openDB s = s) := by
  constructor
  · intro h1
    have hopen : openDB s = { runUpgrade 1 s with version := 2 } := by
      simp [openDB, h1]
    have hup : runUpgrade 1 s =
        { s with
          indexNames :=
            if s.indexNames.contains "tags" then s.indexNames
            else s.indexNames ++ ["tags"]
          records := s.records.map backfillTags } := by
      simp [runUpgrade]
    rw [hopen, hup]
    refine ⟨?_, rfl, ?_, ?_, by simp, rfl⟩
    · by_cases hc : "tags" ∈ s.indexNames
      · rw [if_pos (List.elem_iff.mpr hc)]
        exact hc
      · rw [if_neg (fun hmem => hc (List.elem_iff.mp hmem))]
        simp
    · intro r hr
      simp only [List.mem_map] at hr
      obtain ⟨x, _, rfl⟩ := hr
      by_cases hx : x.tags = none
      · simp [backfillTags, hx]
      · simp [backfillTags, hx]
    · intro r hr htags
      simp only [List.mem_map]
      exact ⟨r, hr, by simp [backfillTags, htags]⟩
  · intro h2
    simp [openDB, h2]

/-- Witness for C3: a concrete version-1 database with one legacy and
one tagged record. -/
theorem openDB_migration_spec_witness :
    "tags" ∈ (openDB sampleV1DB).indexNames ∧
    (openDB sampleV1DB).records = sampleV1DB.records.map backfillTags ∧
    (∀ r ∈ (openDB sampleV1DB).records, r.tags ≠ none) :=
  ⟨((openDB_migration_spec sampleV1DB).1 rfl).1,
   ((openDB_migration_spec sampleV1DB).1 rfl).2.1,
   ((openDB_migration_spec sampleV1DB).1 rfl).2.2.1⟩

/-- C8: on an open store with well-formed primary keys (every record has
a nonzero id, ids unique), `stopCurrentActivity` succeeds and modifies
at most one record: when no record lacks `end` the store is unchanged,
and otherwise exactly the first `end`-less record in iteration order
gets `end` set to the injected time, every other record staying as it
was. -/
theorem stopCurrentActivity_spec (db : TimeTrackerDB)
    (s : List Activity) (now : Int) (hopen : db = some s)
    (hids : ∀ a ∈ s, a.id ≠ none ∧ a.id ≠ some 0)
    (hnodup : (s.map Activity.id).Nodup) :
    ((∀ a ∈ s, a.endTime ≠ none) → stopCurrentActivity db now = .ok db) ∧
    (∀ a, s.find? (fun b => b.endTime.isNone) = some a →
      stopCurrentActivity db now =
        .ok (some (s.map (fun b =>
          if b = a then { b with endTime := some now } else b)))) := by
  subst hopen
  constructor
  · intro hall
    have hnone : s.find? (fun b => b.endTime.isNone) = none := by
      rw [List.find?_eq_none]
      intro a ha
      simpa [Option.isNone_iff_eq_none] using hall a ha
    simp [stopCurrentActivity, getCurrentActivity, hnone]
  · intro a hfind
    have hamem : a ∈ s := List.mem_of_find?_eq_some hfind
    obtain ⟨hida, hid0⟩ := hids a hamem
    obtain ⟨n, hn⟩ := Option.ne_none_iff_exists.mp hida
    have hn0 : n ≠ 0 := by
      intro h; exact hid0 (by rw [← hn, h])
    have hfind2 : ∃ b, s.find? (fun b => decide (b.id = some n)) = some b := by
      have : (s.find? (fun b => decide (b.id = some n))).isSome := by
        rw [List.find?_isSome]
        exact ⟨a, hamem, by simp [← hn]⟩
      exact Option.isSome_iff_exists.mp this
    obtain ⟨b, hb⟩ := hfind2
    have hmaps : s.map (fun c =>
        if c.id = some n then mergeActivity c { endTime := some (some now) }
        else c) =
        s.map (fun c => if c = a then { c with endTime := some now } else c) := by
      apply List.map_congr_left
      intro c hc
      by_cases hca : c = a
      · subst hca
        simp [← hn, mergeActivity]
      · have hcid : ¬ c.id = some n := by
          intro hceq
          exact hca (List.inj_on_of_nodup_map hnodup hc hamem (by rw [hceq, hn]))
        simp [hcid, hca]
    simp only [stopCurrentActivity, getCurrentActivity, hfind, ← hn,
      updateActivity, hb, hn0, if_true, ne_eq, not_false_iff]
    rw [hmaps]

/-- Witness for C8: stopping with one open and one closed record sets
`end` on the open one and keeps the closed one. -/
theorem stopCurrentActivity_spec_witness :
    stopCurrentActivity (some [sampleOpen, sampleClosed]) 1704110400000 =
      .ok (some ([sampleOpen, sampleClosed].map (fun b =>
        if b = sampleOpen then { b with endTime := some 1704110400000 }
        else b))) :=
  (stopCurrentActivity_spec (some [sampleOpen, sampleClosed])
    [sampleOpen, sampleClosed] 1704110400000 rfl (by decide) (by decide)).2
    sampleOpen (by decide)

/-- Transitivity of the start comparator. -/
theorem startLe_trans (a b c : Activity) (hab : startLe a b = true)
    (hbc : startLe b c = true) : startLe a c = true := by
  simp only [startLe, decide_eq_true_eq] at *
  exact le_trans hab hbc

/-- Totality of the start comparator. -/
theorem startLe_total (a b : Activity) :
    (startLe a b || startLe b a) = true := by
  simp only [startLe, Bool.or_eq_true, decide_eq_true_eq]
  exact le_total a.start b.start

/-- C1: on an open store with denormalized date fields consistent with
`start`, `getActivitiesByDate` returns exactly the records whose
denormalized `(year, month, day)` equals the query date's local
calendar date, sorted ascending by `start`; when no record matches the
result is empty. -/
theorem getActivitiesByDate_spec (db : TimeTrackerDB)
    (s : List Activity) (dateMs : Int) (res : List Activity)
    (hopen : db = some s)
    (hcons : ∀ a ∈ s, a.year = getFullYear a.start ∧
      a.month = getMonth a.start + 1 ∧ a.day = getDate a.start)
    (hres : getActivitiesByDate db dateMs = .ok res) :
    res.Perm (s.filter (fun a => dateTripleEq a (getFullYear dateMs)
      (getMonth dateMs + 1) (getDate dateMs))) ∧
    res.Pairwise (fun a b => a.start ≤ b.start) ∧
    ((∀ a ∈ s, ¬(a.year = getFullYear dateMs ∧
        a.month = getMonth dateMs + 1 ∧ a.day = getDate dateMs)) →
      res = []) := by
  subst hopen
  simp only [getActivitiesByDate, Except.ok.injEq] at hres
  subst hres
  refine ⟨?_, ?_, ?_⟩
  · exact List.mergeSort_perm _ startLe
  · have hs := @List.sorted_mergeSort Activity startLe
      (fun a b c => startLe_trans a b c) startLe_total
      (s.filter (fun a => dateTripleEq a (getFullYear dateMs)
        (getMonth dateMs + 1) (getDate dateMs)))
    exact hs.imp (fun h => by simpa [startLe] using h)
  · intro hnone
    have hfil : s.filter (fun a => dateTripleEq a (getFullYear dateMs)
        (getMonth dateMs + 1) (getDate dateMs)) = [] := by
      rw [List.filter_eq_nil_iff]
      intro a ha
      have hn := hnone a ha
      simp only [dateTripleEq, Bool.and_eq_true, decide_eq_true_eq]
      tauto
    rw [hfil]
    exact List.mergeSort_nil

/-- 2024-01-01T10:00Z with consistent date fields. -/
def wJan1a : Activity :=
  { id := some 1
    activity := "a"
    description := none
    tags := some ["work"]
    start := 1704103200000
    endTime := some 1704106800000
    day := 1
    month := 1
    year := 2024 }

/-- 2024-01-01T14:00Z with consistent date fields. -/
def wJan1b : Activity :=
  { id := some 2
    activity := "b"
    description := none
    tags := none
    start := 1704117600000
    endTime := some 1704121200000
    day := 1
    month := 1
    year := 2024 }

/-- 2024-01-02T09:00Z with consistent date fields. -/
def wJan2 : Activity :=
  { id := some 3
    activity := "c"
    description := none
    tags := some []
    start := 1704186000000
    endTime := some 1704189600000
    day := 2
    month := 1
    year := 2024 }

/-- Witness for C1: the spec's example store queried on 2024-01-01
returns the two activities of that day in start order. -/
theorem getActivitiesByDate_spec_witness :
    ([wJan1a, wJan1b] : List Activity).Perm
      ([wJan1a, wJan1b, wJan2].filter (fun a =>
        dateTripleEq a (getFullYear 1704067200000)
          (getMonth 1704067200000 + 1) (getDate 1704067200000))) ∧
    ([wJan1a, wJan1b] : List Activity).Pairwise
      (fun a b => a.start ≤ b.start) :=
  have h := getActivitiesByDate_spec (some [wJan1a, wJan1b, wJan2])
    [wJan1a, wJan1b, wJan2] 1704067200000 [wJan1a, wJan1b] rfl
    (by decide)
    (by simp only [getActivitiesByDate]
        have hfil : [wJan1a, wJan1b, wJan2].filter (fun a =>
            dateTripleEq a (getFullYear 1704067200000)
              (getMonth 1704067200000 + 1) (getDate 1704067200000)) =
            [wJan1a, wJan1b] := by decide
        rw [hfil]
        have hms : List.mergeSort [wJan1a, wJan1b] startLe =
            [wJan1a, wJan1b] := by
          simp [List.mergeSort, startLe, wJan1a, wJan1b]
        rw [hms])
  ⟨h.1, h.2.1⟩

/-- A record whose denormalized date fields (2024-01-01) disagree with
the local calendar date of its `start` (1970-01-01T00:00Z). -/
def mismatchAct : Activity :=
  { id := some 7
    activity := "m"
    description := none
    tags := some ["work", "urgent"]
    start := 0
    endTime := some 60000
    day := 1
    month := 1
    year := 2024 }

/-- Counterexample to C2 as stated: `getActivitiesByDateAndTags` does
not apply the same date filter as `getActivitiesByDate`.  On a store
holding one record whose denormalized triple matches 2024-01-01 but
whose `start` lies on 1970-01-01, the tag-query (with no tag filter)
returns nothing while the date-query returns the record. -/
theorem getActivitiesByDateAndTags_counterexample :
    getActivitiesByDateAndTags (some [mismatchAct]) 1704067200000 [] =
      .ok [] ∧
    getActivitiesByDate (some [mismatchAct]) 1704067200000 =
      .ok [mismatchAct] ∧
    dateTripleEq mismatchAct (getFullYear 1704067200000)
      (getMonth 1704067200000 + 1) (getDate 1704067200000) = true := by
  refine ⟨?_, ?_, by decide⟩
  · have hfil : [mismatchAct].filter
        (fun a => sameStartDate a 1704067200000) = [] := by decide
    simp only [getActivitiesByDateAndTags, hfil, List.length_nil,
      gt_iff_lt, lt_self_iff_false, if_false, List.filter_nil,
      List.mergeSort_nil]
  · have hfil : [mismatchAct].filter (fun a =>
        dateTripleEq a (getFullYear 1704067200000)
          (getMonth 1704067200000 + 1) (getDate 1704067200000)) =
        [mismatchAct] := by decide
    simp only [getActivitiesByDate, hfil, List.mergeSort_singleton]

/-- C2 (amended): the date filter of `getActivitiesByDateAndTags` keys
on the start timestamp's local calendar date; on stores whose
denormalized fields are consistent with `start` this coincides with the
denormalized-triple filter of `getActivitiesByDate`, restricted to the
records carrying every requested tag (AND semantics, empty list = no
tag filter), sorted ascending by `start`. -/
theorem getActivitiesByDateAndTags_spec (db : TimeTrackerDB)
    (s : List Activity) (dateMs : Int) (tags : List String)
    (res : List Activity) (hopen : db = some s)
    (hcons : ∀ a ∈ s, a.year = getFullYear a.start ∧
      a.month = getMonth a.start + 1 ∧ a.day = getDate a.start)
    (hres : getActivitiesByDateAndTags db dateMs tags = .ok res) :
    res.Perm ((s.filter (fun a => dateTripleEq a (getFullYear dateMs)
      (getMonth dateMs + 1) (getDate dateMs))).filter
      (fun a => tags.all (fun t => hasTag a t))) ∧
    res.Pairwise (fun a b => a.start ≤ b.start) ∧
    (∀ a, a ∈ res ↔ (a ∈ s ∧ sameStartDate a dateMs = true ∧
      ∀ t ∈ tags, hasTag a t = true)) := by
  subst hopen
  simp only [getActivitiesByDateAndTags, Except.ok.injEq] at hres
  have hunif : (if tags.length > 0 then
      (s.filter (fun a => sameStartDate a dateMs)).filter
        (fun a => tags.all (fun t => hasTag a t))
      else s.filter (fun a => sameStartDate a dateMs)) =
      (s.filter (fun a => sameStartDate a dateMs)).filter
        (fun a => tags.all (fun t => hasTag a t)) := by
    by_cases h : tags.length > 0
    · rw [if_pos h]
    · rw [if_neg h]
      cases tags with
      | nil => simp
      | cons t ts => simp at h
  rw [hunif] at hres
  subst hres
  have hfeq : s.filter (fun a => sameStartDate a dateMs) =
      s.filter (fun a => dateTripleEq a (getFullYear dateMs)
        (getMonth dateMs + 1) (getDate dateMs)) :=
    List.filter_congr (fun a ha => by
      obtain ⟨h1, h2, h3⟩ := hcons a ha
      rw [Bool.eq_iff_iff]
      simp only [sameStartDate, dateTripleEq, Bool.and_eq_true,
        decide_eq_true_eq, h1, h2, h3]
      omega)
  refine ⟨?_, ?_, ?_⟩
  · rw [← hfeq]
    exact List.mergeSort_perm _ startLe
  · have hs := @List.sorted_mergeSort Activity startLe
      (fun a b c => startLe_trans a b c) startLe_total
      ((s.filter (fun a => sameStartDate a dateMs)).filter
        (fun a => tags.all (fun t => hasTag a t)))
    exact hs.imp (fun h => by simpa [startLe] using h)
  · intro a
    rw [(List.mergeSort_perm _ startLe).mem_iff]
    simp only [List.mem_filter, List.all_eq_true, Bool.and_eq_true]
    tauto

/-- 2024-01-01T10:00Z record tagged `["work", "urgent"]`, date fields
consistent with `start`. -/
def wTagged : Activity :=
  { id := some 9
    activity := "t"
    description := none
    tags := some ["work", "urgent"]
    start := 1704103200000
    endTime := some 1704106800000
    day := 1
    month := 1
    year := 2024 }

/-- Witness for C2 (amended): on the singleton consistent store, the
membership characterization instantiated for the tag lists `["work"]`
and `["personal"]` — the record satisfies the first filter and fails
the second. -/
theorem getActivitiesByDateAndTags_spec_witness :
    (wTagged ∈ ([wTagged] : List Activity) ↔
      (wTagged ∈ [wTagged] ∧ sameStartDate wTagged 1704067200000 = true ∧
        ∀ t ∈ ["work"], hasTag wTagged t = true)) ∧
    (wTagged ∈ ([] : List Activity) ↔
      (wTagged ∈ [wTagged] ∧ sameStartDate wTagged 1704067200000 = true ∧
        ∀ t ∈ ["personal"], hasTag wTagged t = true)) := by
  constructor
  · exact (getActivitiesByDateAndTags_spec (some [wTagged]) [wTagged]
      1704067200000 ["work"] [wTagged] rfl (by decide)
      (by have hfil : ([wTagged].filter
            (fun a => sameStartDate a 1704067200000)).filter
            (fun a => ["work"].all (fun t => hasTag a t)) = [wTagged] := by
            decide
          simp only [getActivitiesByDateAndTags, List.length_cons,
            gt_iff_lt, Nat.zero_lt_succ, if_true, hfil,
            List.mergeSort_singleton])).2.2 wTagged
  · exact (getActivitiesByDateAndTags_spec (some [wTagged]) [wTagged]
      1704067200000 ["personal"] [] rfl (by decide)
      (by have hfil : ([wTagged].filter
            (fun a => sameStartDate a 1704067200000)).filter
            (fun a => ["personal"].all (fun t => hasTag a t)) = [] := by
            decide
          simp only [getActivitiesByDateAndTags, List.length_cons,
            gt_iff_lt, Nat.zero_lt_succ, if_true, hfil,
            List.mergeSort_nil])).2.2 wTagged

/-- C5: the productivity score is 0 on an empty list; otherwise it is
the weighted sum of the four sub-scores divided by the accumulated
weights (which total 1) and rounded; and a list with full consistency,
every session in [25, 90] minutes, every activity tagged and at least
ten distinct names scores exactly 100. -/
theorem calculateProductivityScore_spec (timeRange : Nat) (now : Int)
    (acts : List Activity) :
    (acts = [] → calculateProductivityScore timeRange now acts = 0) ∧
    (acts ≠ [] → calculateProductivityScore timeRange now acts =
      (jsRound ((consistencyScore timeRange acts * (3/10) +
        sessionScore now acts * (3/10) +
        organizationScore acts * (2/10) +
        varietyScore acts * (2/10)) / (3/10 + 3/10 + 2/10 + 2/10)) : ℚ)) ∧
    (acts ≠ [] →
      (activeDaysCount acts : ℚ) ≥
        (if timeRange = 0 then (30 : ℚ) else (timeRange : ℚ)) →
      (∀ a ∈ acts, 25 ≤ durationMinutes now a ∧ durationMinutes now a ≤ 90) →
      (∀ a ∈ acts, isTagged a = true) →
      uniqueActivityCount acts ≥ 10 →
      calculateProductivityScore timeRange now acts = 100) := by
  refine ⟨?_, ?_, ?_⟩
  · intro h
    subst h
    simp [calculateProductivityScore]
  · intro h
    rw [calculateProductivityScore, if_neg (by simpa using h)]
  · intro hne hconsis hsess htag huniq
    have hn : acts.length ≠ 0 := by simpa using hne
    have hnq : (0 : ℚ) < (acts.length : ℚ) := by
      exact_mod_cast Nat.pos_of_ne_zero hn
    have hdays : (0 : ℚ) <
        (if timeRange = 0 then (30 : ℚ) else (timeRange : ℚ)) := by
      by_cases ht : timeRange = 0
      · simp [ht]
      · rw [if_neg ht]
        exact_mod_cast Nat.pos_of_ne_zero ht
    have hcons100 : consistencyScore timeRange acts = 100 := by
      rw [consistencyScore]
      apply min_eq_right
      have h1 : (if timeRange = 0 then (30 : ℚ) else (timeRange : ℚ)) ≤
          (activeDaysCount acts : ℚ) := hconsis
      have h2 : (1 : ℚ) ≤ (activeDaysCount acts : ℚ) /
          (if timeRange = 0 then (30 : ℚ) else (timeRange : ℚ)) :=
        (le_div_iff hdays).mpr (by linarith)
      nlinarith
    have hsess100 : sessionScore now acts = 100 := by
      have hlo : (acts.length : ℤ) * 25 ≤ totalMinutes now acts := by
        have := List.card_nsmul_le_sum (acts.map (durationMinutes now)) 25
          (by
            intro x hx
            obtain ⟨a, ha, rfl⟩ := List.mem_map.mp hx
            exact (hsess a ha).1)
        simpa [totalMinutes, nsmul_eq_mul] using this
      have hhi : totalMinutes now acts ≤ (acts.length : ℤ) * 90 := by
        have := List.sum_le_card_nsmul (acts.map (durationMinutes now)) 90
          (by
            intro x hx
            obtain ⟨a, ha, rfl⟩ := List.mem_map.mp hx
            exact (hsess a ha).2)
        simpa [totalMinutes, nsmul_eq_mul] using this
      have hloq : (25 : ℚ) ≤ (totalMinutes now acts : ℚ) / (acts.length : ℚ) := by
        rw [le_div_iff hnq]
        have : ((acts.length : ℤ) : ℚ) * 25 ≤ ((totalMinutes now acts : ℤ) : ℚ) := by
          exact_mod_cast hlo
        push_cast at this ⊢
        linarith
      have hhiq : (totalMinutes now acts : ℚ) / (acts.length : ℚ) ≤ 90 := by
        rw [div_le_iff hnq]
        have : ((totalMinutes now acts : ℤ) : ℚ) ≤ ((acts.length : ℤ) : ℚ) * 90 := by
          exact_mod_cast hhi
        push_cast at this ⊢
        linarith
      rw [sessionScore]
      rw [if_pos ⟨hloq, hhiq⟩]
    have horg100 : organizationScore acts = 100 := by
      have hfil : acts.filter isTagged = acts :=
        List.filter_eq_self.mpr htag
      rw [organizationScore, taggedCount, hfil, div_self (ne_of_gt hnq)]
      norm_num
    have hvar100 : varietyScore acts = 100 := by
      rw [varietyScore]
      apply min_eq_right
      have h10 : (10 : ℚ) ≤ (uniqueActivityCount acts : ℚ) := by
        exact_mod_cast huniq
      nlinarith
    rw [calculateProductivityScore, if_neg hn, hcons100, hsess100,
      horg100, hvar100]
    norm_num [jsRound]

/-- One 30-minute tagged activity on 2024-01-01, used by the perfect
productivity-score witness. -/
def perfAct (i : Int) (nm : String) : Activity :=
  { id := some i
    activity := nm
    description := none
    tags := some ["work"]
    start := 1704103200000 + i * 1800000
    endTime := some (1704103200000 + i * 1800000 + 1800000)
    day := 1
    month := 1
    year := 2024 }

/-- Ten 30-minute tagged activities with distinct names on one day. -/
def perfActs : List Activity :=
  [perfAct 1 "a1", perfAct 2 "a2", perfAct 3 "a3", perfAct 4 "a4",
   perfAct 5 "a5", perfAct 6 "a6", perfAct 7 "a7", perfAct 8 "a8",
   perfAct 9 "a9", perfAct 10 "b0"]

/-- Witness for C5: the perfect list scores exactly 100 over a one-day
window. -/
theorem calculateProductivityScore_spec_witness :
    calculateProductivityScore 1 1704200000000 perfActs = 100 :=
  (calculateProductivityScore_spec 1 1704200000000 perfActs).2.2
    (by decide)
    (by have h : activeDaysCount perfActs = 1 := by decide
        rw [h]
        norm_num)
    (by decide)
    (by decide)
    (by decide)

/-- Shape characterization of a successful regex match. -/
theorem parseTimeChars_some_shape (l : List Char) (h m : Nat)
    (hp : parseTimeChars l = some (h, m)) :
    ∃ hs ms : List Char, l = hs ++ ':' :: ms ∧ 1 ≤ hs.length ∧
      hs.length ≤ 2 ∧ ms.length = 2 ∧ (∀ c ∈ hs, c.isDigit) ∧
      (∀ c ∈ ms, c.isDigit) ∧ charsVal hs = h ∧ charsVal ms = m := by
  rcases l with _ | ⟨a, _ | ⟨b, _ | ⟨c, _ | ⟨d, _ | ⟨e, _ | ⟨f, rest⟩⟩⟩⟩⟩⟩
  · simp [parseTimeChars] at hp
  · simp [parseTimeChars] at hp
  · simp [parseTimeChars] at hp
  · simp [parseTimeChars] at hp
  · rw [parseTimeChars] at hp
    by_cases hcond : decide (b = ':') && a.isDigit && c.isDigit && d.isDigit
    · rw [if_pos hcond] at hp
      simp only [Bool.and_eq_true, decide_eq_true_eq] at hcond
      obtain ⟨⟨⟨hb, ha⟩, hc⟩, hd⟩ := hcond
      subst hb
      refine ⟨[a], [c, d], rfl, by simp, by simp, by simp, ?_, ?_, ?_, ?_⟩
      · intro x hx; simp at hx; subst hx; exact ha
      · intro x hx; rcases List.mem_pair.mp hx with rfl | rfl
        · exact hc
        · exact hd
      · simp only [Option.some.injEq, Prod.mk.injEq] at hp
        simp [charsVal, ← hp.1]
      · simp only [Option.some.injEq, Prod.mk.injEq] at hp
        simp [charsVal, ← hp.2]
    · rw [if_neg hcond] at hp
      exact absurd hp (by simp)
  · rw [parseTimeChars] at hp
    by_cases hcond : decide (c = ':') && a.isDigit && b.isDigit &&
        d.isDigit && e.isDigit
    · rw [if_pos hcond] at hp
      simp only [Bool.and_eq_true, decide_eq_true_eq] at hcond
      obtain ⟨⟨⟨⟨hc, ha⟩, hb⟩, hd⟩, he⟩ := hcond
      subst hc
      refine ⟨[a, b], [d, e], rfl, by simp, by simp, by simp, ?_, ?_, ?_, ?_⟩
      · intro x hx; rcases List.mem_pair.mp hx with rfl | rfl
        · exact ha
        · exact hb
      · intro x hx; rcases List.mem_pair.mp hx with rfl | rfl
        · exact hd
        · exact he
      · simp only [Option.some.injEq, Prod.mk.injEq] at hp
        simp [charsVal, ← hp.1]
      · simp only [Option.some.injEq, Prod.mk.injEq] at hp
        simp [charsVal, ← hp.2]
    · rw [if_neg hcond] at hp
      exact absurd hp (by simp)
  · simp [parseTimeChars] at hp

/-- The regex accepts every string of the valid shape, returning the
parsed group values. -/
theorem parseTimeChars_of_shape (hs ms : List Char)
    (h1 : 1 ≤ hs.length) (h2 : hs.length ≤ 2) (h3 : ms.length = 2)
    (hd : ∀ c ∈ hs, c.isDigit) (md : ∀ c ∈ ms, c.isDigit) :
    parseTimeChars (hs ++ ':' :: ms) =
      some (charsVal hs, charsVal ms) := by
  rcases ms with _ | ⟨c, _ | ⟨d, _ | ⟨e, tl⟩⟩⟩
  · simp at h3
  · simp at h3
  rotate_left
  · simp at h3
  have hc : c.isDigit := md c (by simp)
  have hdd : d.isDigit := md d (by simp)
  rcases hs with _ | ⟨a, _ | ⟨b, _ | ⟨x, tl2⟩⟩⟩
  · simp at h1
  · have ha : a.isDigit := hd a (by simp)
    simp [parseTimeChars, ha, hc, hdd, charsVal, digitVal]
  · have ha : a.isDigit := hd a (by simp)
    have hb : b.isDigit := hd b (List.mem_cons_of_mem a (by simp))
    simp [parseTimeChars, ha, hb, hc, hdd, charsVal, digitVal]
  · simp at h2

/-- C10: `parseTimeInput` succeeds exactly on strings made of one or
two digits, a colon, and exactly two digits, whose hour value is at
most 23 and minute value at most 59; on every other string it returns
null; and `isValidTimeFormat` is true exactly when `parseTimeInput`
succeeds. -/
theorem parseTimeInput_spec (s : String) :
    ((parseTimeInput s).isSome ↔ ValidTimeString s) ∧
    isValidTimeFormat s = (parseTimeInput s).isSome := by
  refine ⟨⟨?_, ?_⟩, rfl⟩
  · intro h
    rw [parseTimeInput] at h
    cases hp : parseTimeChars s.data with
    | none => rw [hp] at h; simp at h
    | some v =>
      obtain ⟨hh, mm⟩ := v
      rw [hp] at h
      replace h : (if (decide (hh ≤ 23) && decide (mm ≤ 59)) = true
          then some (hh, mm) else none).isSome = true := h
      by_cases hb : (decide (hh ≤ 23) && decide (mm ≤ 59)) = true
      · simp only [Bool.and_eq_true, decide_eq_true_eq] at hb
        obtain ⟨hs, ms, hl, hl1, hl2, hl3, hdig, mdig, hv, mv⟩ :=
          parseTimeChars_some_shape s.data hh mm hp
        exact ⟨hs, ms, hl, hl1, hl2, hl3, hdig, mdig,
          by rw [hv]; exact hb.1, by rw [mv]; exact hb.2⟩
      · rw [if_neg hb] at h
        simp at h
  · intro hv
    obtain ⟨hs, ms, hl, hl1, hl2, hl3, hdig, mdig, hb1, hb2⟩ := hv
    rw [parseTimeInput, hl,
      parseTimeChars_of_shape hs ms hl1 hl2 hl3 hdig mdig]
    have hcond : (decide (charsVal hs ≤ 23) &&
        decide (charsVal ms ≤ 59)) = true := by
      simp [hb1, hb2]
    show (if (decide (charsVal hs ≤ 23) && decide (charsVal ms ≤ 59)) = true
        then some (charsVal hs, charsVal ms) else none).isSome = true
    rw [if_pos hcond]
    simp

/-- The fuel of `decDigitsCore` is irrelevant once it exceeds the
argument. -/
theorem decDigitsCore_fuel_eq (f1 : Nat) : ∀ (f2 n : Nat), n < f1 →
    n < f2 → decDigitsCore f1 n = decDigitsCore f2 n := by
  induction f1 with
  | zero => intro f2 n h1 _; omega
  | succ f ih =>
    intro f2 n h1 h2
    cases f2 with
    | zero => omega
    | succ g =>
      simp only [decDigitsCore]
      by_cases hn : n < 10
      · rw [if_pos hn, if_pos hn]
      · rw [if_neg hn, if_neg hn]
        have hd : n / 10 < n := Nat.div_lt_self (by omega) (by omega)
        rw [ih (g) (n / 10) (by omega) (by omega)]

/-- Single-digit expansion. -/
theorem decDigits_lt_ten (n : Nat) (h : n < 10) :
    decDigits n = [Nat.digitChar n] := by
  simp only [decDigits, decDigitsCore, if_pos h]

/-- Peel the least significant digit. -/
theorem decDigits_ge_ten (n : Nat) (h : 10 ≤ n) :
    decDigits n = decDigits (n / 10) ++ [Nat.digitChar (n % 10)] := by
  have hd : n / 10 < n := Nat.div_lt_self (by omega) (by omega)
  show decDigitsCore (n + 1) n =
    decDigitsCore (n / 10 + 1) (n / 10) ++ [Nat.digitChar (n % 10)]
  rw [show decDigitsCore (n + 1) n = if n < 10 then [Nat.digitChar n]
    else decDigitsCore n (n / 10) ++ [Nat.digitChar (n % 10)] from rfl]
  rw [if_neg (by omega : ¬ n < 10)]
  rw [decDigitsCore_fuel_eq n (n / 10 + 1) (n / 10) (by omega) (by omega)]

/-- `digitChar` and `digitVal` are mutually inverse on 0..9. -/
theorem digitVal_digitChar (d : Nat) (h : d < 10) :
    digitVal (Nat.digitChar d) = d := by
  interval_cases d <;> rfl

/-- `digitChar` produces digit characters on 0..9. -/
theorem isDigit_digitChar (d : Nat) (h : d < 10) :
    (Nat.digitChar d).isDigit = true := by
  interval_cases d <;> rfl

/-- A nonzero digit does not print as the character zero. -/
theorem digitChar_ne_zero (d : Nat) (h1 : 1 ≤ d) (h2 : d < 10) :
    Nat.digitChar d ≠ '0' := by
  interval_cases d <;> decide

/-- Appending one digit multiplies the value by ten. -/
theorem charsVal_append_singleton (l : List Char) (c : Char) :
    charsVal (l ++ [c]) = 10 * charsVal l + digitVal c := by
  simp [charsVal, List.foldl_append]

/-- The decimal printer round-trips through `charsVal`. -/
theorem charsVal_decDigits (n : Nat) : charsVal (decDigits n) = n := by
  induction n using Nat.strong_induction_on with
  | _ n ih =>
    by_cases h : n < 10
    · rw [decDigits_lt_ten n h]
      simp [charsVal, digitVal_digitChar n h]
    · rw [decDigits_ge_ten n (by omega), charsVal_append_singleton,
        ih (n / 10) (Nat.div_lt_self (by omega) (by omega)),
        digitVal_digitChar _ (Nat.mod_lt _ (by omega))]
      omega

/-- The decimal printer is injective. -/
theorem decDigits_inj (m n : Nat) (h : decDigits m = decDigits n) :
    m = n := by
  have hv := charsVal_decDigits m
  rw [h, charsVal_decDigits] at hv
  omega

/-- Every printed character is a digit. -/
theorem decDigits_all_digits (n : Nat) :
    ∀ c ∈ decDigits n, c.isDigit = true := by
  induction n using Nat.strong_induction_on with
  | _ n ih =>
    by_cases h : n < 10
    · rw [decDigits_lt_ten n h]
      intro c hc
      simp only [List.mem_singleton] at hc
      subst hc
      exact isDigit_digitChar n h
    · rw [decDigits_ge_ten n (by omega)]
      intro c hc
      rcases List.mem_append.mp hc with hc | hc
      · exact ih (n / 10) (Nat.div_lt_self (by omega) (by omega)) c hc
      · simp only [List.mem_singleton] at hc
        subst hc
        exact isDigit_digitChar _ (Nat.mod_lt _ (by omega))

/-- Explicit two-digit expansion. -/
theorem decDigits_two (n : Nat) (h1 : 10 ≤ n) (h2 : n < 100) :
    decDigits n = [Nat.digitChar (n / 10), Nat.digitChar (n % 10)] := by
  rw [decDigits_ge_ten n h1, decDigits_lt_ten (n / 10) (by omega)]
  rfl

/-- Four-digit numbers print with four characters. -/
theorem decDigits_length_four (n : Nat) (h1 : 1000 ≤ n)
    (h2 : n < 10000) : (decDigits n).length = 4 := by
  rw [decDigits_ge_ten n (by omega), List.length_append]
  rw [decDigits_ge_ten (n / 10) (by omega), List.length_append]
  rw [decDigits_two (n / 10 / 10) (by omega) (by omega)]
  simp

/-- `String(i)` for a nonnegative integer is the plain digit string. -/
theorem intRepr_data_nonneg (i : Int) (h : 0 ≤ i) :
    (intRepr i).data = decDigits i.toNat := by
  rw [intRepr, if_neg (by omega)]
  rfl

/-- Nonnegative integers below 100 print under `padStart(2, "0")` as
exactly two characters, zero-padded when needed. -/
theorem jsPad2_data (m : Int) (h0 : 0 ≤ m) (h99 : m < 100) :
    (jsPad2 m).data = if m < 10 then ['0', Nat.digitChar m.toNat]
      else [Nat.digitChar (m.toNat / 10), Nat.digitChar (m.toNat % 10)] := by
  simp only [jsPad2]
  by_cases h : m < 10
  · have hd : (intRepr m).data = [Nat.digitChar m.toNat] := by
      rw [intRepr_data_nonneg m h0, decDigits_lt_ten _ (by omega)]
    have hlen : (intRepr m).length < 2 := by
      rw [show (intRepr m).length = (intRepr m).data.length from rfl, hd]
      norm_num
    rw [if_pos hlen, if_pos h, String.data_append, hd]
    rfl
  · have hd : (intRepr m).data =
        [Nat.digitChar (m.toNat / 10), Nat.digitChar (m.toNat % 10)] := by
      rw [intRepr_data_nonneg m h0, decDigits_two _ (by omega) (by omega)]
    have hlen : ¬ (intRepr m).length < 2 := by
      rw [show (intRepr m).length = (intRepr m).data.length from rfl, hd]
      norm_num
    rw [if_neg hlen, if_neg h]
    exact hd

/-- The padded two-character key pieces have length two. -/
theorem jsPad2_data_length (m : Int) (h0 : 0 ≤ m) (h99 : m < 100) :
    (jsPad2 m).data.length = 2 := by
  rw [jsPad2_data m h0 h99]
  by_cases h : m < 10
  · rw [if_pos h]
    rfl
  · rw [if_neg h]
    rfl

/-- `padStart(2, "0")` printing is injective on 0..99. -/
theorem jsPad2_inj (m n : Int) (hm0 : 0 ≤ m) (hm : m < 100)
    (hn0 : 0 ≤ n) (hn : n < 100)
    (h : (jsPad2 m).data = (jsPad2 n).data) : m = n := by
  rw [jsPad2_data m hm0 hm, jsPad2_data n hn0 hn] at h
  by_cases h1 : m < 10 <;> by_cases h2 : n < 10
  · rw [if_pos h1, if_pos h2] at h
    simp only [List.cons.injEq, and_true] at h
    have := congrArg digitVal h.2
    rw [digitVal_digitChar _ (by omega), digitVal_digitChar _ (by omega)]
      at this
    omega
  · rw [if_pos h1, if_neg h2] at h
    simp only [List.cons.injEq] at h
    exact absurd h.1.symm (digitChar_ne_zero _ (by omega) (by omega))
  · rw [if_neg h1, if_pos h2] at h
    simp only [List.cons.injEq] at h
    exact absurd h.1 (digitChar_ne_zero _ (by omega) (by omega))
  · rw [if_neg h1, if_neg h2] at h
    simp only [List.cons.injEq, and_true] at h
    have ha := congrArg digitVal h.1
    have hb := congrArg digitVal h.2
    rw [digitVal_digitChar _ (by omega), digitVal_digitChar _ (by omega)]
      at ha
    rw [digitVal_digitChar _ (by omega), digitVal_digitChar _ (by omega)]
      at hb
    omega

/-- Plain integer printing is injective on nonnegative integers. -/
theorem intRepr_inj (m n : Int) (hm : 0 ≤ m) (hn : 0 ≤ n)
    (h : (intRepr m).data = (intRepr n).data) : m = n := by
  rw [intRepr_data_nonneg m hm, intRepr_data_nonneg n hn] at h
  have := decDigits_inj _ _ h
  omega

/-- Padding to four characters is the identity on four-character
strings. -/
theorem padZeros_four (s : String) (h : s.data.length = 4) :
    (padZeros s 4).data = s.data := by
  rw [padZeros]
  have hz : 4 - s.length = 0 := by
    rw [show s.length = s.data.length from rfl, h]
  rw [hz, String.data_append]
  rfl

/-- Decomposition of the activity-side daily key. -/
theorem paddedDateKey_data (a : Activity) :
    (paddedDateKey a).data = (intRepr a.year).data ++ '-' ::
      ((jsPad2 a.month).data ++ '-' :: (jsPad2 a.day).data) := by
  simp [paddedDateKey, String.data_append]

/-- Decomposition of the window-side ISO key. -/
theorem isoDateKey_data (d : Int) :
    (isoDateKey d).data =
      (padZeros (intRepr (getFullYear d)) 4).data ++ '-' ::
      ((jsPad2 (getMonth d + 1)).data ++ '-' :: (jsPad2 (getDate d)).data) := by
  have hm : getMonth d + 1 = (civilFromDays (epochDay d)).2.1 := by
    rw [getMonth]
    ring
  simp [isoDateKey, getFullYear, getDate, ← hm, String.data_append]

/-- The activity key equals the ISO window key exactly when the
denormalized date triple equals the window day's civil date (for
in-range field values, where neither printing is ambiguous). -/
theorem paddedDateKey_eq_isoDateKey (a : Activity) (d : Int)
    (hy1 : 1000 ≤ a.year) (hy2 : a.year ≤ 9999)
    (hm1 : 0 ≤ a.month) (hm2 : a.month ≤ 12)
    (hd1 : 0 ≤ a.day) (hd2 : a.day ≤ 31)
    (hY1 : 1000 ≤ getFullYear d) (hY2 : getFullYear d ≤ 9999)
    (hM1 : 0 ≤ getMonth d + 1) (hM2 : getMonth d + 1 ≤ 12)
    (hD1 : 0 ≤ getDate d) (hD2 : getDate d ≤ 31) :
    paddedDateKey a = isoDateKey d ↔
      (a.year = getFullYear d ∧ a.month = getMonth d + 1 ∧
        a.day = getDate d) := by
  have hlen4 : (intRepr (getFullYear d)).data.length = 4 := by
    rw [intRepr_data_nonneg _ (by omega)]
    exact decDigits_length_four _ (by omega) (by omega)
  have hpad : (padZeros (intRepr (getFullYear d)) 4).data =
      (intRepr (getFullYear d)).data := padZeros_four _ hlen4
  constructor
  · intro h
    have hdata := String.ext_iff.mp h
    rw [paddedDateKey_data, isoDateKey_data, hpad] at hdata
    have hlenA : (intRepr a.year).data.length =
        (intRepr (getFullYear d)).data.length := by
      rw [hlen4, intRepr_data_nonneg _ (by omega)]
      exact decDigits_length_four _ (by omega) (by omega)
    obtain ⟨hA, hrest⟩ := List.append_inj hdata hlenA
    simp only [List.cons.injEq, true_and] at hrest
    have hlenB : (jsPad2 a.month).data.length =
        (jsPad2 (getMonth d + 1)).data.length := by
      rw [jsPad2_data_length _ hm1 (by omega),
        jsPad2_data_length _ hM1 (by omega)]
    obtain ⟨hB, hrest2⟩ := List.append_inj hrest hlenB
    simp only [List.cons.injEq, true_and] at hrest2
    exact ⟨intRepr_inj _ _ (by omega) (by omega) hA,
      jsPad2_inj _ _ hm1 (by omega) hM1 (by omega) hB,
      jsPad2_inj _ _ hd1 (by omega) hD1 (by omega) hrest2⟩
  · intro ⟨h1, h2, h3⟩
    rw [String.ext_iff, paddedDateKey_data, isoDateKey_data, hpad,
      h1, h2, h3]

/-- Lookup on a nonempty association list. -/
theorem mapGetD_cons (e : String × Int) (t : List (String × Int))
    (k : String) (d : Int) :
    mapGetD (e :: t) k d = if e.1 = k then e.2 else mapGetD t k d := by
  by_cases he : e.1 = k
  · rw [if_pos he, mapGetD, List.find?_cons_of_pos _ (by simpa using he)]
  · rw [if_neg he, mapGetD, List.find?_cons_of_neg _ (by simpa using he)]
    rfl

/-- Appending a fresh binding makes it visible. -/
theorem mapGetD_append_single (m : List (String × Int)) (k : String)
    (v : Int) (h : ∀ e ∈ m, e.1 ≠ k) :
    mapGetD (m ++ [(k, v)]) k 0 = v := by
  induction m with
  | nil => simp [mapGetD_cons]
  | cons e t ih =>
    rw [List.cons_append, mapGetD_cons, if_neg (h e (by simp))]
    exact ih (fun e2 he2 => h e2 (by simp [he2]))

/-- Overwriting an existing binding makes the new value visible. -/
theorem mapGetD_overwrite (m : List (String × Int)) (k : String)
    (v : Int) (h : ∃ e ∈ m, e.1 = k) :
    mapGetD (m.map (fun e => if e.1 == k then (k, v) else e)) k 0 = v := by
  induction m with
  | nil => simp at h
  | cons e t ih =>
    rw [List.map_cons]
    by_cases he : e.1 = k
    · rw [mapGetD_cons]
      simp [he]
    · have hf : (if (e.1 == k) = true then (k, v) else e) = e := by
        simp [he]
      rw [hf, mapGetD_cons, if_neg he]
      apply ih
      rcases h with ⟨e2, he2, hk⟩
      rcases List.mem_cons.mp he2 with rfl | hmem
      · exact absurd hk he
      · exact ⟨e2, hmem, hk⟩

/-- `map.get(k) || 0` after `map.set(k, v)` sees `v`. -/
theorem mapGetD_mapSet_self (m : List (String × Int)) (k : String)
    (v : Int) : mapGetD (mapSet m k v) k 0 = v := by
  rw [mapSet]
  by_cases hany : m.any (fun e => e.1 == k) = true
  · rw [if_pos hany]
    apply mapGetD_overwrite
    simpa using hany
  · rw [if_neg hany]
    apply mapGetD_append_single
    intro e he hk
    apply hany
    simp only [List.any_eq_true]
    exact ⟨e, he, by simpa using hk⟩

/-- `map.set` on one key leaves every other key unchanged. -/
theorem mapGetD_mapSet_other (m : List (String × Int)) (k k2 : String)
    (v : Int) (hne : k2 ≠ k) :
    mapGetD (mapSet m k v) k2 0 = mapGetD m k2 0 := by
  rw [mapSet]
  by_cases hany : m.any (fun e => e.1 == k) = true
  · rw [if_pos hany]
    clear hany
    induction m with
    | nil => rfl
    | cons e t ih =>
      rw [List.map_cons]
      by_cases he : e.1 = k
      · have hf : (if (e.1 == k) = true then (k, v) else e) = (k, v) := by
          simp [he]
        rw [hf, mapGetD_cons, mapGetD_cons,
          if_neg (show ¬(k, v).1 = k2 from fun h => hne h.symm),
          if_neg (show ¬e.1 = k2 from by rw [he]; exact fun h => hne h.symm)]
        exact ih
      · have hf : (if (e.1 == k) = true then (k, v) else e) = e := by
          simp [he]
        rw [hf, mapGetD_cons, mapGetD_cons]
        by_cases h2 : e.1 = k2
        · rw [if_pos h2, if_pos h2]
        · rw [if_neg h2, if_neg h2]
          exact ih
  · rw [if_neg hany]
    clear hany
    induction m with
    | nil =>
      rw [List.nil_append, mapGetD_cons,
        if_neg (show ¬(k, v).1 = k2 from fun h => hne h.symm)]
    | cons e t ih =>
      rw [List.cons_append, mapGetD_cons, mapGetD_cons]
      by_cases h2 : e.1 = k2
      · rw [if_pos h2, if_pos h2]
      · rw [if_neg h2, if_neg h2]
        exact ih

/-- Summed whole-minute durations of the activities whose padded date
key equals `k` — the claim's "activities belonging to that day". -/
def sumForKey (now : Int) (acts : List Activity) (k : String) : Int :=
  ((acts.filter (fun a => paddedDateKey a == k)).map
    (durationMinutes now)).sum

/-- The accumulation loop computes, for every key, the summed durations
of the activities carrying that key. -/
theorem buildDailyMap_foldl_get (now : Int) (acts : List Activity)
    (m : List (String × Int)) (k : String) :
    mapGetD (acts.foldl (fun m a => mapSet m (paddedDateKey a)
      (mapGetD m (paddedDateKey a) 0 + durationMinutes now a)) m) k 0 =
    mapGetD m k 0 + sumForKey now acts k := by
  induction acts generalizing m with
  | nil => simp [sumForKey]
  | cons a t ih =>
    rw [List.foldl_cons, ih]
    by_cases hk : paddedDateKey a = k
    · rw [← hk, mapGetD_mapSet_self]
      have hsum : sumForKey now (a :: t) (paddedDateKey a) =
          durationMinutes now a + sumForKey now t (paddedDateKey a) := by
        simp [sumForKey, List.filter_cons]
      rw [hsum]
      omega
    · rw [mapGetD_mapSet_other m (paddedDateKey a) k _
        (fun h => hk h.symm)]
      have hsum : sumForKey now (a :: t) k = sumForKey now t k := by
        simp [sumForKey, List.filter_cons, hk]
      rw [hsum]

/-- Bucket lookup in `generateDailyTimeData`. -/
theorem buildDailyMap_get (now : Int) (acts : List Activity)
    (k : String) :
    mapGetD (buildDailyMap now acts) k 0 = sumForKey now acts k := by
  have h := buildDailyMap_foldl_get now acts [] k
  rw [show mapGetD [] k 0 = 0 from rfl, zero_add] at h
  exact h

/-- C6: the daily time series has exactly one entry per calendar day of
the lookback window ending today, in chronological order with no day
skipped (entry `i` is the ISO key of `now` minus `days - 1 - i` days),
each entry's minutes being the summed floored whole-minute durations of
the activities keyed to that day (0 when none); and for in-range field
values an activity is keyed to a window day exactly when its
denormalized `(year, month, day)` equals that day's civil date. -/
theorem generateDailyTimeData_spec (timeRange : Nat) (now : Int)
    (acts : List Activity) :
    (generateDailyTimeData timeRange now acts).length =
      (if timeRange = 0 then 30 else timeRange) ∧
    (∀ i, i < (if timeRange = 0 then 30 else timeRange) →
      (generateDailyTimeData timeRange now acts)[i]? = some
        { date := isoDateKey (now -
            (((if timeRange = 0 then 30 else timeRange) - 1 - i : Nat) : Int) *
              86400000)
          minutes := sumForKey now acts (isoDateKey (now -
            (((if timeRange = 0 then 30 else timeRange) - 1 - i : Nat) : Int) *
              86400000)) }) ∧
    (∀ (a : Activity) (dayMs : Int),
      1000 ≤ a.year → a.year ≤ 9999 → 0 ≤ a.month → a.month ≤ 12 →
      0 ≤ a.day → a.day ≤ 31 →
      1000 ≤ getFullYear dayMs → getFullYear dayMs ≤ 9999 →
      0 ≤ getMonth dayMs + 1 → getMonth dayMs + 1 ≤ 12 →
      0 ≤ getDate dayMs → getDate dayMs ≤ 31 →
      (paddedDateKey a = isoDateKey dayMs ↔
        (a.year = getFullYear dayMs ∧ a.month = getMonth dayMs + 1 ∧
          a.day = getDate dayMs))) := by
  refine ⟨?_, ?_, ?_⟩
  · simp [generateDailyTimeData]
  · intro i hi
    simp only [generateDailyTimeData]
    rw [List.getElem?_map, List.getElem?_range hi]
    rw [Option.map_some']
    rw [buildDailyMap_get]
  · intro a dayMs h1 h2 h3 h4 h5 h6 h7 h8 h9 h10 h11 h12
    exact paddedDateKey_eq_isoDateKey a dayMs h1 h2 h3 h4 h5 h6 h7 h8
      h9 h10 h11 h12

/-- Witness for C6: a two-day window over one 60-minute activity on the
earlier day; entry 0 carries that day's key and its 60 minutes, and the
key correspondence holds on that activity and day. -/
theorem generateDailyTimeData_spec_witness :
    (generateDailyTimeData 2 1704189600000 [wJan1a])[0]? = some
      { date := isoDateKey (1704189600000 -
          ((((if (2 : Nat) = 0 then 30 else 2) - 1 - 0 : Nat)) : Int) *
            86400000)
        minutes := sumForKey 1704189600000 [wJan1a]
          (isoDateKey (1704189600000 -
            ((((if (2 : Nat) = 0 then 30 else 2) - 1 - 0 : Nat)) : Int) *
              86400000)) } ∧
    (paddedDateKey wJan1a = isoDateKey 1704103200000 ↔
      (wJan1a.year = getFullYear 1704103200000 ∧
        wJan1a.month = getMonth 1704103200000 + 1 ∧
        wJan1a.day = getDate 1704103200000)) :=
  ⟨(generateDailyTimeData_spec 2 1704189600000 [wJan1a]).2.1 0 (by decide),
   (generateDailyTimeData_spec 2 1704189600000 [wJan1a]).2.2 wJan1a
     1704103200000 (by decide) (by decide) (by decide) (by decide)
     (by decide) (by decide) (by decide) (by decide) (by decide)
     (by decide) (by decide) (by decide)⟩
